import Mathlib

/-!
Verification of the routine-generator scheduling engine.

Shallow embedding of `generate_schedule_from_components` from `app.py`:
the placeholder scheduling routine that expands class components into
tasks, shuffles them, and places them day-by-day with a per-day time
cursor, a global day counter, round-robin room choice, a 5-minute buffer
after each placement, and a cursor reset when a task overflows the
daily window.  The Python `random.shuffle` is modelled by an explicit
`shuffle` parameter: the function is otherwise deterministic in it.
-/

/-- A time of day, as entered through the UI time pickers. -/
structure HMTime where
  hour : Nat
  minute : Nat
deriving DecidableEq, Repr

/-- The helper `time_to_minutes` from app.py: minutes since midnight. -/
def time_to_minutes (t : HMTime) : Nat :=
  t.hour * 60 + t.minute

/-- Zero-pad a number to width 2, like Python's `{:02d}`. -/
def pad2 (n : Nat) : String :=
  if n < 10 then "0" ++ toString n else toString n

/-- The helper `format_time_slot` from app.py: e.g. `08:00-08:50`. -/
def format_time_slot (start_minute duration_minute : Nat) : String :=
  let end_minute := start_minute + duration_minute
  pad2 (start_minute / 60) ++ ":" ++ pad2 (start_minute % 60) ++ "-" ++
    pad2 (end_minute / 60) ++ ":" ++ pad2 (end_minute % 60)

/-- A class component, as stored in `st.session_state.class_components`.
`assigned_room` is `none` for Theory components and `some` a lab name or
the sentinel string `"Any Available Lab"` for Lab components. -/
structure Component where
  id : String
  course_code : String
  component_title : String
  semester : String
  sections : List String
  class_type : String
  sessions_per_week : Nat
  duration_minutes : Nat
  assigned_room : Option String
deriving DecidableEq, Repr

/-- One atomic session instance, as built in the task-expansion loop of
`generate_schedule_from_components`. -/
structure SchedTask where
  course_code : String
  component_title : String
  semester : String
  sec : String
  class_type : String
  duration_minutes : Nat
  assigned_room : Option String
  task_id : String
deriving DecidableEq, Repr

/-- The task built for component `c`, section `sec`, session index `n`. -/
def expandTask (c : Component) (sec : String) (n : Nat) : SchedTask :=
  { course_code := c.course_code
    component_title := c.component_title
    semester := c.semester
    sec := sec
    class_type := c.class_type
    duration_minutes := c.duration_minutes
    assigned_room := c.assigned_room
    task_id := c.id ++ "_" ++ sec ++ "_" ++ toString n }

/-- The `tasks_to_schedule` list: for each component, for each of its
sections, one task per session index `0, …, sessions_per_week - 1`. -/
def expandTasks (cs : List Component) : List SchedTask :=
  cs.flatMap fun c =>
    c.sections.flatMap fun sec =>
      (List.range c.sessions_per_week).map (expandTask c sec)

/-- One row of the produced schedule (one element of `schedule_entries`). -/
structure Entry where
  day : String
  time_slot : String
  start_minute : Nat
  end_minute : Nat
  semester : String
  sec : String
  course_code : String
  component_title : String
  room : String
  type : String
  component_id : String
deriving DecidableEq, Repr, Inhabited

/-- The schedule row appended for task `t` placed on `day` at `slotStart`
in `room`. -/
def mkEntry (t : SchedTask) (day : String) (slotStart : Nat) (room : String) : Entry :=
  { day := day
    time_slot := format_time_slot slotStart t.duration_minutes
    start_minute := slotStart
    end_minute := slotStart + t.duration_minutes
    semester := t.semester
    sec := t.sec
    course_code := t.course_code
    component_title := t.component_title
    room := room
    type := t.class_type
    component_id := t.task_id }

/-- Pointwise update of a string-keyed map, modelling a Python dict write. -/
def upd (f : String → Nat) (k : String) (v : Nat) : String → Nat :=
  fun x => if x = k then v else f x

/-- The mutable state of the placement loop: the per-day time cursor
`current_slot_time_per_day`, the counter dict `day_index_counter`
(only the entry of `working_days[0]` is ever incremented), and a flag
recording whether any per-day cursor reset has occurred. -/
structure SState where
  cursor : String → Nat
  counter : String → Nat
  resetOccurred : Bool

/-- The room chosen for task `t` on day `cd` (lines 119-132 of app.py):
Theory picks a classroom round-robin by `day_index_counter[current_day]`;
a Lab with a truthy specific `assigned_room` (not the sentinel) uses it
directly; otherwise a Lab picks a lab round-robin.  `none` when the
needed pool is empty. -/
def roomToUse (classrooms labs : List String) (counter : String → Nat)
    (cd : String) (t : SchedTask) : Option String :=
  if t.class_type = "Theory" then
    if classrooms.isEmpty then none
    else some (classrooms.getD (counter cd % classrooms.length) "")
  else if t.class_type = "Lab" then
    match t.assigned_room with
    | some r =>
      if r ≠ "" ∧ r ≠ "Any Available Lab" then some r
      else if labs.isEmpty then none
      else some (labs.getD (counter cd % labs.length) "")
    | none =>
      if labs.isEmpty then none
      else some (labs.getD (counter cd % labs.length) "")
  else none

/-- One attempt to place task `t`, trying up to `fuel` working days
(the inner `for _ in range(len(working_days))` loop).  Each iteration:
pick the day indexed by the global counter, increment the counter, read
the day's cursor as the slot start; if the slot fits the window and a
room is available, emit the entry and advance the day's cursor past the
slot end plus a 5-minute buffer; otherwise, when the slot overflows the
window, reset the day's cursor to the window start and continue. -/
def tryPlace (days : List String) (d0 : String) (classrooms labs : List String)
    (startM endM : Nat) (t : SchedTask) : Nat → SState → Option Entry × SState
  | 0, s => (none, s)
  | fuel + 1, s =>
    let dayIdx := s.counter d0 % days.length
    let currentDay := days.getD dayIdx ""
    let s1 : SState := { s with counter := upd s.counter d0 (s.counter d0 + 1) }
    let slotStart := s1.cursor currentDay
    let slotEnd := slotStart + t.duration_minutes
    if slotEnd ≤ endM then
      match roomToUse classrooms labs s1.counter currentDay t with
      | some room =>
        (some (mkEntry t currentDay slotStart room),
          { s1 with cursor := upd s1.cursor currentDay (slotEnd + 5) })
      | none => tryPlace days d0 classrooms labs startM endM t fuel s1
    else
      tryPlace days d0 classrooms labs startM endM t fuel
        { s1 with cursor := upd s1.cursor currentDay startM, resetOccurred := true }

/-- The outer `for task in tasks_to_schedule` loop: returns the placed
entries in placement order, the unplaced tasks in order, and the final
state. -/
def scheduleTasks (days : List String) (d0 : String) (classrooms labs : List String)
    (startM endM : Nat) : List SchedTask → SState → List Entry × List SchedTask × SState
  | [], s => ([], [], s)
  | t :: ts, s =>
    match tryPlace days d0 classrooms labs startM endM t days.length s with
    | (some e, s1) =>
      let r := scheduleTasks days d0 classrooms labs startM endM ts s1
      (e :: r.1, r.2.1, r.2.2)
    | (none, s1) =>
      let r := scheduleTasks days d0 classrooms labs startM endM ts s1
      (r.1, t :: r.2.1, r.2.2)

/-- The `Day_Order` column used by the final sort: the index of the day in
`working_days`, with absent days mapped to the list length
(pandas `map(...).fillna(len(day_order_map))`). -/
def dayOrderOf (working_days : List String) (d : String) : Nat :=
  working_days.indexOf d

/-- Strict character comparison by Unicode code point, as Python compares
characters inside strings. -/
def charLtB (a b : Char) : Bool :=
  decide (a < b)

/-- Strict lexicographic comparison of character lists: first differing
character decides, a proper prefix is smaller.  This is Python's `<` on
strings, which pandas uses to sort string columns. -/
def strLtData : List Char → List Char → Bool
  | [], [] => false
  | [], _ :: _ => true
  | _ :: _, [] => false
  | a :: as, b :: bs => if a = b then strLtData as bs else charLtB a b

/-- Python's `<` on strings. -/
def strLt (a b : String) : Bool :=
  strLtData a.data b.data

/-- One level of a lexicographic comparison chain: decided by this
level's strict comparisons when they discriminate, deferred to the rest
of the key otherwise. -/
def lexStep (lt1 lt2 rest : Bool) : Bool :=
  if lt1 then true else if lt2 then false else rest

/-- Non-strict comparison of two rows by the sort key `(Semester,
Day_Order, Start_Minute, Section, Course Code)`, each level compared the
way pandas compares the column values. -/
def keyLEB (working_days : List String) (a b : Entry) : Bool :=
  lexStep (strLt a.semester b.semester) (strLt b.semester a.semester)
    (lexStep (decide (dayOrderOf working_days a.day < dayOrderOf working_days b.day))
      (decide (dayOrderOf working_days b.day < dayOrderOf working_days a.day))
      (lexStep (decide (a.start_minute < b.start_minute))
        (decide (b.start_minute < a.start_minute))
        (lexStep (strLt a.sec b.sec) (strLt b.sec a.sec)
          (lexStep (strLt a.course_code b.course_code)
            (strLt b.course_code a.course_code) true))))

/-- Row comparison by sort key, as a relation. -/
def keyLE (working_days : List String) (a b : Entry) : Prop :=
  keyLEB working_days a b = true

instance (working_days : List String) : DecidableRel (keyLE working_days) :=
  fun a b => inferInstanceAs (Decidable (keyLEB working_days a b = true))

/-- Two rows tie on the full sort key exactly when each compares
less-or-equal to the other. -/
def keyTieB (working_days : List String) (a b : Entry) : Bool :=
  keyLEB working_days a b && keyLEB working_days b a

/-- The final `sort_values(by=['Semester', 'Day_Order', 'Start_Minute',
'Section', 'Course Code'])`, modelled as a stable sort by the key. -/
def sortSchedule (working_days : List String) (es : List Entry) : List Entry :=
  es.insertionSort (keyLE working_days)

/-- The result of one generation run: the error messages printed via
`st.error`, the (sorted) schedule rows, the tasks reported unplaced via
`st.warning`, and whether any per-day cursor reset occurred. -/
structure GenOutput where
  errors : List String
  entries : List Entry
  unplaced : List SchedTask
  resetOccurred : Bool
deriving DecidableEq, Repr

/-- The check `needs_theory_room` (app.py line 62). -/
def needs_theory_room (cs : List Component) : Bool :=
  cs.any fun c => c.class_type = "Theory"

/-- The check `needs_lab_room_any` (app.py line 63). -/
def needs_lab_room_any (cs : List Component) : Bool :=
  cs.any fun c => c.class_type = "Lab" ∧ c.assigned_room = some "Any Available Lab"

/-- The initial loop state: every day's cursor at the window start
(`current_slot_time_per_day = {day: start for day in working_days}`),
every counter at 0, no reset yet. -/
def initState (startM : Nat) : SState :=
  { cursor := fun _ => startM, counter := fun _ => 0, resetOccurred := false }

/-- The scheduler `generate_schedule_from_components` from app.py.  `shuffle` stands for
the unseeded `random.shuffle` applied to the expanded task list; every
other step is deterministic.  The three input validations short-circuit
with an error message and an empty result; otherwise the tasks are
placed in shuffled order and the rows sorted. -/
def generate_schedule_from_components (cs : List Component)
    (classrooms labs working_days : List String)
    (startT endT : HMTime) (shuffle : List SchedTask → List SchedTask) : GenOutput :=
  if cs.isEmpty || working_days.isEmpty then
    { errors := ["Cannot generate schedule: Missing class components or working days."]
      entries := [], unplaced := [], resetOccurred := false }
  else if needs_theory_room cs && classrooms.isEmpty then
    { errors := ["Cannot schedule: Theory components exist, but no Classrooms are defined in the sidebar."]
      entries := [], unplaced := [], resetOccurred := false }
  else if needs_lab_room_any cs && labs.isEmpty then
    { errors := ["Cannot schedule: Lab components need Any Available Lab, but no general Lab rooms are defined in the sidebar."]
      entries := [], unplaced := [], resetOccurred := false }
  else
    { errors := []
      entries := sortSchedule working_days
        (scheduleTasks working_days (working_days.headD "") classrooms labs
          (time_to_minutes startT) (time_to_minutes endT)
          (shuffle (expandTasks cs)) (initState (time_to_minutes startT))).1
      unplaced := (scheduleTasks working_days (working_days.headD "") classrooms labs
          (time_to_minutes startT) (time_to_minutes endT)
          (shuffle (expandTasks cs)) (initState (time_to_minutes startT))).2.1
      resetOccurred := (scheduleTasks working_days (working_days.headD "") classrooms labs
          (time_to_minutes startT) (time_to_minutes endT)
          (shuffle (expandTasks cs)) (initState (time_to_minutes startT))).2.2.resetOccurred }

/-- The specific room a task is pinned to, when any: the Lab branch of the
room choice uses `assigned_room` directly exactly when it is truthy and
not the sentinel `"Any Available Lab"`. -/
def specificRoom (t : SchedTask) : Option String :=
  match t.assigned_room with
  | some r => if r ≠ "" ∧ r ≠ "Any Available Lab" then some r else none
  | none => none

/-! ### Lemmas about the sort layer -/

/-- The key comparison is total: of any two rows, one compares
less-or-equal to the other. -/
lemma lexStep_total {lt1 lt2 rest1 rest2 : Bool}
    (h : rest1 = true ∨ rest2 = true) :
    lexStep lt1 lt2 rest1 = true ∨ lexStep lt2 lt1 rest2 = true := by
  cases lt1
  · cases lt2
    · simpa [lexStep] using h
    · simp [lexStep]
  · simp [lexStep]

lemma keyLEB_total (wd : List String) (a b : Entry) :
    keyLEB wd a b = true ∨ keyLEB wd b a = true := by
  unfold keyLEB
  exact lexStep_total (lexStep_total (lexStep_total (lexStep_total
    (lexStep_total (Or.inl rfl)))))

/-- Inserting into a locally sorted list keeps it locally sorted, given a
total comparison. -/
lemma chain'_orderedInsert {α : Type} {r : α → α → Prop} [DecidableRel r]
    (total : ∀ a b, r a b ∨ r b a) (a : α) :
    ∀ l : List α, l.Chain' r → (l.orderedInsert r a).Chain' r := by
  intro l
  induction l with
  | nil => intro _; simp [List.orderedInsert]
  | cons b l ih =>
    intro h
    by_cases hab : r a b
    · simp only [List.orderedInsert, if_pos hab]
      exact List.chain'_cons.mpr ⟨hab, h⟩
    · simp only [List.orderedInsert, if_neg hab]
      have hb : r b a := (total a b).resolve_left hab
      have hi := ih h.tail
      cases l with
      | nil =>
        simp only [List.orderedInsert]
        exact List.chain'_cons.mpr ⟨hb, List.chain'_singleton a⟩
      | cons c l2 =>
        by_cases hac : r a c
        · simp only [List.orderedInsert, if_pos hac] at hi ⊢
          exact List.chain'_cons.mpr ⟨hb, hi⟩
        · simp only [List.orderedInsert, if_neg hac] at hi ⊢
          have hbc : r b c := (List.chain'_cons.mp h).1
          exact List.chain'_cons.mpr ⟨hbc, hi⟩

/-- The sorted schedule is locally sorted by the key. -/
lemma sortSchedule_chain' (wd : List String) (es : List Entry) :
    (sortSchedule wd es).Chain' (keyLE wd) := by
  unfold sortSchedule
  induction es with
  | nil => simp
  | cons e es ih =>
    simp only [List.insertionSort]
    exact chain'_orderedInsert (fun a b => keyLEB_total wd a b) e _ ih

/-- The sorted schedule is a permutation of the raw entry list. -/
lemma sortSchedule_perm (wd : List String) (es : List Entry) :
    (sortSchedule wd es).Perm es :=
  List.perm_insertionSort (keyLE wd) es

/-- A list permuting a two-element list is that list or its swap. -/
lemma perm_pair_eq {α : Type} {l : List α} {a b : α} (h : l.Perm [a, b]) :
    l = [a, b] ∨ l = [b, a] := by
  have h2 : l.length = 2 := by simpa using h.length_eq
  obtain ⟨x, y, rfl⟩ := List.length_eq_two.mp h2
  have hx : x ∈ [a, b] := h.subset (by simp)
  simp only [List.mem_cons, List.not_mem_nil, or_false] at hx
  rcases hx with rfl | rfl
  · have hy : [y].Perm [b] := h.cons_inv
    have : y = b := by simpa using List.perm_singleton.mp hy
    exact Or.inl (by rw [this])
  · have hy : [y].Perm [a] := (h.trans (List.Perm.swap a x []).symm).cons_inv
    have : y = a := by simpa using List.perm_singleton.mp hy
    exact Or.inr (by rw [this])

/-! ### Lemmas about the placement loop -/

/-- The reset flag is monotone: if the state after a placement attempt
reports no reset, the starting state reported none either. -/
lemma tryPlace_reset_of (days : List String) (d0 : String)
    (classrooms labs : List String) (startM endM : Nat) (t : SchedTask) :
    ∀ fuel s, ((tryPlace days d0 classrooms labs startM endM t fuel s).2).resetOccurred = false →
      s.resetOccurred = false := by
  intro fuel
  induction fuel with
  | zero => intro s h; simpa [tryPlace] using h
  | succ fuel ih =>
    intro s h
    simp only [tryPlace] at h
    split at h
    · split at h
      · simpa using h
      · have h2 := ih _ h
        simpa using h2
    · have h2 := ih _ h
      simp at h2

/-- Round-robin indexing stays inside a non-empty pool. -/
lemma getD_mod_mem (l : List String) (k : Nat) (hl : l.isEmpty = false) :
    l.getD (k % l.length) "" ∈ l := by
  have hlen : 0 < l.length := by
    cases l
    · simp at hl
    · simp
  have hk : k % l.length < l.length := Nat.mod_lt _ hlen
  rw [List.getD_eq_getElem?_getD, List.getElem?_eq_getElem hk]
  exact List.getElem_mem hk

/-- The chosen room is drawn from the pool the task's type and
`assigned_room` imply. -/
lemma roomToUse_mem (classrooms labs : List String) (counter : String → Nat)
    (cd : String) (t : SchedTask) (r : String)
    (h : roomToUse classrooms labs counter cd t = some r) :
    (t.class_type = "Theory" → r ∈ classrooms) ∧
    (t.class_type = "Lab" →
      (∀ s2, specificRoom t = some s2 → r = s2) ∧
      (specificRoom t = none → r ∈ labs)) := by
  by_cases hth : t.class_type = "Theory"
  · simp only [roomToUse, hth, if_pos] at h
    by_cases hce : classrooms.isEmpty
    · rw [if_pos hce] at h; simp at h
    · rw [if_neg hce] at h
      simp only [Option.some.injEq] at h
      subst h
      refine ⟨fun _ => getD_mod_mem _ _ (by simpa using hce), fun hlab => ?_⟩
      rw [hth] at hlab
      simp at hlab
  · by_cases hlb : t.class_type = "Lab"
    · refine ⟨fun hth2 => absurd hth2 hth, fun _ => ?_⟩
      rcases ha : t.assigned_room with _ | rr
      · simp only [roomToUse, hth, hlb, ha] at h
        rw [if_neg (by decide : ¬ ("Lab" : String) = "Theory")] at h
        by_cases hle : labs.isEmpty
        · rw [if_pos hle] at h; simp at h
        · rw [if_neg hle] at h
          simp at h; subst h
          exact ⟨fun s2 hs2 => by simp [specificRoom, ha] at hs2,
                 fun _ => by simpa using getD_mod_mem labs (counter cd) (by simpa using hle)⟩
      · simp only [roomToUse, hth, hlb, ha] at h
        rw [if_neg (by decide : ¬ ("Lab" : String) = "Theory")] at h
        by_cases h4 : rr ≠ "" ∧ rr ≠ "Any Available Lab"
        · rw [if_pos h4] at h
          simp at h; subst h
          refine ⟨fun s2 hs2 => ?_, fun hn => ?_⟩
          · simp only [specificRoom, ha, if_pos h4, Option.some.injEq] at hs2
            exact hs2
          · simp [specificRoom, ha, if_pos h4] at hn
        · rw [if_neg h4] at h
          by_cases hle : labs.isEmpty
          · rw [if_pos hle] at h; simp at h
          · rw [if_neg hle] at h
            simp at h; subst h
            exact ⟨fun s2 hs2 => by simp [specificRoom, ha, if_neg h4] at hs2,
                   fun _ => by simpa using getD_mod_mem labs (counter cd) (by simpa using hle)⟩
    · simp only [roomToUse] at h
      rw [if_neg hth, if_neg hlb] at h
      simp at h

/-- Window invariant: if every day cursor is at or after the window
start, this persists through a placement attempt, and any entry placed
lies inside the window. -/
lemma tryPlace_window (days : List String) (d0 : String)
    (classrooms labs : List String) (startM endM : Nat) (t : SchedTask) :
    ∀ fuel s oe s', tryPlace days d0 classrooms labs startM endM t fuel s = (oe, s') →
      (∀ d, startM ≤ s.cursor d) →
      (∀ d, startM ≤ s'.cursor d) ∧
      (∀ e, oe = some e → startM ≤ e.start_minute ∧ e.end_minute ≤ endM ∧
        e.end_minute = e.start_minute + t.duration_minutes) := by
  intro fuel
  induction fuel with
  | zero =>
    intro s oe s' heq hs
    simp only [tryPlace] at heq
    cases heq
    exact ⟨hs, fun e he => by simp at he⟩
  | succ fuel ih =>
    intro s oe s' heq hs
    simp only [tryPlace] at heq
    split at heq
    · rename_i hle
      split at heq
      · cases heq
        constructor
        · intro d
          simp only [upd]
          split
          · have := hs (days.getD (s.counter d0 % days.length) "")
            omega
          · exact hs d
        · intro e he
          simp only [Option.some.injEq] at he
          subst he
          refine ⟨hs _, ?_, rfl⟩
          simpa [mkEntry] using hle
      · exact ih _ _ _ heq hs
    · refine ih _ _ _ heq ?_
      intro d
      simp only [upd]
      split
      · exact le_refl _
      · exact hs d

/-- When a placement attempt ends with the reset flag still clear, the
day cursors moved in exactly one way: unchanged if nothing was placed,
and pushed to the entry's end plus the 5-minute buffer on the entry's
day if an entry was placed, which then starts exactly at that day's
previous cursor. -/
lemma tryPlace_noreset_spec (days : List String) (d0 : String)
    (classrooms labs : List String) (startM endM : Nat) (t : SchedTask) :
    ∀ fuel s oe s', tryPlace days d0 classrooms labs startM endM t fuel s = (oe, s') →
      s'.resetOccurred = false →
      (oe = none → s'.cursor = s.cursor) ∧
      (∀ e, oe = some e →
        e.start_minute = s.cursor e.day ∧
        e.end_minute = e.start_minute + t.duration_minutes ∧
        s'.cursor = upd s.cursor e.day (e.end_minute + 5)) := by
  intro fuel
  induction fuel with
  | zero =>
    intro s oe s' heq _
    simp only [tryPlace] at heq
    cases heq
    exact ⟨fun _ => rfl, fun e he => by simp at he⟩
  | succ fuel ih =>
    intro s oe s' heq hr
    simp only [tryPlace] at heq
    split at heq
    · split at heq
      · cases heq
        refine ⟨fun hn => by simp at hn, fun e he => ?_⟩
        simp only [Option.some.injEq] at he
        subst he
        exact ⟨rfl, rfl, rfl⟩
      · have h2 := ih _ _ _ heq hr
        exact h2
    · exfalso
      have hflag : (tryPlace days d0 classrooms labs startM endM t fuel
          { cursor := upd s.cursor (days.getD (s.counter d0 % days.length) "") startM,
            counter := upd s.counter d0 (s.counter d0 + 1),
            resetOccurred := true }).2.resetOccurred = false := by
        rw [heq]; exact hr
      have := tryPlace_reset_of days d0 classrooms labs startM endM t fuel _ hflag
      simp at this

/-- A placed entry copies its fields from the task, and its room comes
from the pool the task implies. -/
lemma tryPlace_entry (days : List String) (d0 : String)
    (classrooms labs : List String) (startM endM : Nat) (t : SchedTask) :
    ∀ fuel s oe s', tryPlace days d0 classrooms labs startM endM t fuel s = (oe, s') →
      ∀ e, oe = some e →
        e.component_id = t.task_id ∧ e.type = t.class_type ∧
        e.semester = t.semester ∧ e.sec = t.sec ∧
        e.course_code = t.course_code ∧ e.component_title = t.component_title ∧
        e.end_minute = e.start_minute + t.duration_minutes ∧
        (t.class_type = "Theory" → e.room ∈ classrooms) ∧
        (t.class_type = "Lab" →
          (∀ s2, specificRoom t = some s2 → e.room = s2) ∧
          (specificRoom t = none → e.room ∈ labs)) := by
  intro fuel
  induction fuel with
  | zero =>
    intro s oe s' heq e he
    simp only [tryPlace] at heq
    cases heq
    simp at he
  | succ fuel ih =>
    intro s oe s' heq e he
    simp only [tryPlace] at heq
    split at heq
    · split at heq
      · rename_i room hroom
        cases heq
        simp only [Option.some.injEq] at he
        subst he
        have hm := roomToUse_mem classrooms labs _ _ t room hroom
        exact ⟨rfl, rfl, rfl, rfl, rfl, rfl, rfl, hm.1, hm.2⟩
      · exact ih _ _ _ heq e he
    · exact ih _ _ _ heq e he

/-- The reset flag is monotone through the whole task loop. -/
lemma scheduleTasks_reset_of (days : List String) (d0 : String)
    (classrooms labs : List String) (startM endM : Nat) :
    ∀ ts s, ((scheduleTasks days d0 classrooms labs startM endM ts s).2.2).resetOccurred = false →
      s.resetOccurred = false := by
  intro ts
  induction ts with
  | nil => intro s h; simpa [scheduleTasks] using h
  | cons t ts ih =>
    intro s h
    rcases htp : tryPlace days d0 classrooms labs startM endM t days.length s with ⟨oe, s1⟩
    have h1 : ((scheduleTasks days d0 classrooms labs startM endM ts s1).2.2).resetOccurred = false := by
      rcases oe with _ | e <;> simpa [scheduleTasks, htp] using h
    exact tryPlace_reset_of days d0 classrooms labs startM endM t days.length s
      (by rw [htp]; exact ih s1 h1)

/-- Every produced entry arises from some task in the list, copying its
fields, with a room from the implied pool. -/
lemma scheduleTasks_entries (days : List String) (d0 : String)
    (classrooms labs : List String) (startM endM : Nat) :
    ∀ ts s, ∀ e ∈ (scheduleTasks days d0 classrooms labs startM endM ts s).1,
      ∃ t ∈ ts,
        e.component_id = t.task_id ∧ e.type = t.class_type ∧
        e.semester = t.semester ∧ e.sec = t.sec ∧
        e.course_code = t.course_code ∧ e.component_title = t.component_title ∧
        e.end_minute = e.start_minute + t.duration_minutes ∧
        (t.class_type = "Theory" → e.room ∈ classrooms) ∧
        (t.class_type = "Lab" →
          (∀ s2, specificRoom t = some s2 → e.room = s2) ∧
          (specificRoom t = none → e.room ∈ labs)) := by
  intro ts
  induction ts with
  | nil => intro s e he; simp [scheduleTasks] at he
  | cons t ts ih =>
    intro s e he
    rcases htp : tryPlace days d0 classrooms labs startM endM t days.length s with ⟨oe, s1⟩
    rcases oe with _ | e0
    · simp only [scheduleTasks, htp] at he
      obtain ⟨t', ht', hp⟩ := ih s1 e he
      exact ⟨t', List.mem_cons_of_mem _ ht', hp⟩
    · simp only [scheduleTasks, htp, List.mem_cons] at he
      rcases he with rfl | he
      · exact ⟨t, List.mem_cons_self _ _,
          tryPlace_entry days d0 classrooms labs startM endM t days.length s _ _ htp e rfl⟩
      · obtain ⟨t', ht', hp⟩ := ih s1 e he
        exact ⟨t', List.mem_cons_of_mem _ ht', hp⟩

/-- Window containment for every produced entry, given cursors at or
after the window start. -/
lemma scheduleTasks_window (days : List String) (d0 : String)
    (classrooms labs : List String) (startM endM : Nat) :
    ∀ ts s, (∀ d, startM ≤ s.cursor d) →
      ∀ e ∈ (scheduleTasks days d0 classrooms labs startM endM ts s).1,
        startM ≤ e.start_minute ∧ e.end_minute ≤ endM := by
  intro ts
  induction ts with
  | nil => intro s _ e he; simp [scheduleTasks] at he
  | cons t ts ih =>
    intro s hs e he
    rcases htp : tryPlace days d0 classrooms labs startM endM t days.length s with ⟨oe, s1⟩
    have hw := tryPlace_window days d0 classrooms labs startM endM t days.length s _ _ htp hs
    rcases oe with _ | e0
    · simp only [scheduleTasks, htp] at he
      exact ih s1 hw.1 e he
    · simp only [scheduleTasks, htp, List.mem_cons] at he
      rcases he with rfl | he
      · obtain ⟨h1, h2, _⟩ := hw.2 e rfl
        exact ⟨h1, h2⟩
      · exact ih s1 hw.1 e he

/-- The ids of the produced entries form a sublist of the task ids. -/
lemma scheduleTasks_ids_sublist (days : List String) (d0 : String)
    (classrooms labs : List String) (startM endM : Nat) :
    ∀ ts s, ((scheduleTasks days d0 classrooms labs startM endM ts s).1.map
        Entry.component_id).Sublist (ts.map SchedTask.task_id) := by
  intro ts
  induction ts with
  | nil => intro s; simp [scheduleTasks]
  | cons t ts ih =>
    intro s
    rcases htp : tryPlace days d0 classrooms labs startM endM t days.length s with ⟨oe, s1⟩
    rcases oe with _ | e0
    · simp only [scheduleTasks, htp, List.map_cons]
      exact (ih s1).cons _
    · simp only [scheduleTasks, htp, List.map_cons]
      have hid : e0.component_id = t.task_id :=
        (tryPlace_entry days d0 classrooms labs startM endM t days.length s _ _ htp e0 rfl).1
      rw [hid]
      exact (ih s1).cons₂ _

/-- In a run whose final state records no cursor reset, every entry
starts at or after the cursor its day had when the entry's task was
reached, and any two entries of the same day are separated, in
placement order, by at least the 5-minute buffer after the earlier
entry's end. -/
lemma scheduleTasks_noreset_gap (days : List String) (d0 : String)
    (classrooms labs : List String) (startM endM : Nat) :
    ∀ ts s, ((scheduleTasks days d0 classrooms labs startM endM ts s).2.2).resetOccurred = false →
      (∀ e ∈ (scheduleTasks days d0 classrooms labs startM endM ts s).1,
        s.cursor e.day ≤ e.start_minute) ∧
      (scheduleTasks days d0 classrooms labs startM endM ts s).1.Pairwise
        (fun a b => a.day = b.day → a.end_minute + 5 ≤ b.start_minute) := by
  intro ts
  induction ts with
  | nil =>
    intro s _
    simp [scheduleTasks]
  | cons t ts ih =>
    intro s hflag
    rcases htp : tryPlace days d0 classrooms labs startM endM t days.length s with ⟨oe, s1⟩
    have hflag1 : ((scheduleTasks days d0 classrooms labs startM endM ts s1).2.2).resetOccurred = false := by
      rcases oe with _ | e0 <;> simpa [scheduleTasks, htp] using hflag
    have hs1 : s1.resetOccurred = false :=
      scheduleTasks_reset_of days d0 classrooms labs startM endM ts s1 hflag1
    have spec := tryPlace_noreset_spec days d0 classrooms labs startM endM t
      days.length s oe s1 htp hs1
    have IH := ih s1 hflag1
    rcases oe with _ | e0
    · have hcur : s1.cursor = s.cursor := spec.1 rfl
      constructor
      · intro e he
        simp only [scheduleTasks, htp] at he
        have := IH.1 e he
        rwa [hcur] at this
      · simp only [scheduleTasks, htp]
        exact IH.2
    · obtain ⟨hstart, hend, hcur⟩ := spec.2 e0 rfl
      constructor
      · intro e he
        simp only [scheduleTasks, htp, List.mem_cons] at he
        rcases he with rfl | he
        · exact le_of_eq hstart.symm
        · have h1 := IH.1 e he
          rw [hcur] at h1
          simp only [upd] at h1
          split at h1
          · rename_i hday
            rw [hday, ← hstart] at *
            omega
          · exact h1
      · simp only [scheduleTasks, htp]
        refine List.pairwise_cons.mpr ⟨?_, IH.2⟩
        intro b hb hday
        have h1 := IH.1 b hb
        rw [hcur] at h1
        simp only [upd, ← hday] at h1
        simpa using h1

/-! ### Facts about the full generation run -/

/-- The generator only looks at the shuffle through the shuffled task
list. -/
lemma generate_shuffle_congr (cs : List Component)
    (classrooms labs working_days : List String) (startT endT : HMTime)
    (f1 f2 : List SchedTask → List SchedTask)
    (h : f1 (expandTasks cs) = f2 (expandTasks cs)) :
    generate_schedule_from_components cs classrooms labs working_days startT endT f1 =
    generate_schedule_from_components cs classrooms labs working_days startT endT f2 := by
  unfold generate_schedule_from_components
  rw [h]

/-- Room-exclusivity of a list of rows: no two rows in the same room on
the same day have overlapping half-open intervals. -/
def roomExclusive (es : List Entry) : Prop :=
  es.Pairwise fun a b => a.day = b.day → a.room = b.room →
    ¬ (a.start_minute < b.end_minute ∧ b.start_minute < a.end_minute)

/-- Same-day rows keep at least the 5-minute buffer between one row's
end and the other row's start, one way or the other. -/
def bufferedSameDay (es : List Entry) : Prop :=
  es.Pairwise fun a b => a.day = b.day →
    (a.end_minute + 5 ≤ b.start_minute ∨ b.end_minute + 5 ≤ a.start_minute)

instance (es : List Entry) : Decidable (roomExclusive es) := by
  unfold roomExclusive
  exact inferInstance

instance (es : List Entry) : Decidable (bufferedSameDay es) := by
  unfold bufferedSameDay
  exact inferInstance

/-- C1 (amended): room-exclusivity holds for every run in which no
per-day cursor reset occurs — each placement pushes its day's cursor
past its own end, so same-day rows cannot overlap, whatever their
rooms.  (The unamended claim fails when a reset occurs; see the
counterexample.) -/
theorem C1_roomExclusive_noReset (cs : List Component)
    (classrooms labs working_days : List String) (startT endT : HMTime)
    (shuffle : List SchedTask → List SchedTask)
    (h : (generate_schedule_from_components cs classrooms labs working_days
        startT endT shuffle).resetOccurred = false) :
    roomExclusive (generate_schedule_from_components cs classrooms labs working_days
      startT endT shuffle).entries := by
  unfold generate_schedule_from_components at h ⊢
  split_ifs at h ⊢
  · simp [roomExclusive]
  · simp [roomExclusive]
  · simp [roomExclusive]
  · dsimp only at h ⊢
    rw [roomExclusive]
    refine ((sortSchedule_perm working_days _).pairwise_iff ?_).mpr ?_
    · intro x y hxy hd hr hov
      exact hxy hd.symm hr.symm ⟨hov.2, hov.1⟩
    · have gap := (scheduleTasks_noreset_gap working_days (working_days.headD "")
        classrooms labs (time_to_minutes startT) (time_to_minutes endT)
        (shuffle (expandTasks cs)) (initState (time_to_minutes startT)) h).2
      refine gap.imp ?_
      intro a b hgap hd _ hov
      have h5 := hgap hd
      rcases hov with ⟨h6, h7⟩
      omega

/-- Concrete catalog for the C1 witness: two weekly theory sessions in
an ample 08:00-17:00 window; no reset can occur. -/
def c1wit_comp : Component :=
  { id := "w1", course_code := "CSE101", component_title := "Intro", semester := "S1",
    sections := ["A"], class_type := "Theory", sessions_per_week := 2,
    duration_minutes := 50, assigned_room := none }

def c1wit_out : GenOutput :=
  generate_schedule_from_components [c1wit_comp] ["C101"] [] ["Mon"] ⟨8, 0⟩ ⟨17, 0⟩ id

/-- C1 witness: the amended theorem applied to a concrete reset-free run. -/
theorem C1_witness : c1wit_out.resetOccurred = false ∧ roomExclusive c1wit_out.entries :=
  ⟨by decide, C1_roomExclusive_noReset [c1wit_comp] ["C101"] [] ["Mon"] ⟨8, 0⟩ ⟨17, 0⟩ id (by decide)⟩

/-- Concrete catalog for the C1 counterexample: three 50-minute sessions
in a 60-minute window on one day with one classroom.  The first session
takes 08:00-08:50; the second overflows and resets the day cursor; the
third is then placed again at 08:00-08:50 in the same room C101. -/
def c1cex_comp : Component :=
  { id := "x1", course_code := "CSE102", component_title := "Algo", semester := "S1",
    sections := ["A"], class_type := "Theory", sessions_per_week := 3,
    duration_minutes := 50, assigned_room := none }

def c1cex_out : GenOutput :=
  generate_schedule_from_components [c1cex_comp] ["C101"] [] ["Mon"] ⟨8, 0⟩ ⟨9, 0⟩ id

/-- C1 counterexample: the claim as stated is false — this produced
schedule assigns room C101 on Mon to two identical overlapping
08:00-08:50 intervals. -/
theorem C1_counterexample :
    ¬ roomExclusive c1cex_out.entries ∧
    c1cex_out.entries.map (fun e => (e.day, e.room, e.start_minute, e.end_minute)) =
      [("Mon", "C101", 480, 530), ("Mon", "C101", 480, 530)] := by
  constructor
  · decide
  · decide

/-- C3: window containment — every produced row starts at or after the
daily window's start minute, and its end minute (its start plus its
task's duration) is at or before the window's end minute, for arbitrary
inputs, resets included. -/
theorem C3_window_containment (cs : List Component)
    (classrooms labs working_days : List String) (startT endT : HMTime)
    (shuffle : List SchedTask → List SchedTask) :
    ∀ e ∈ (generate_schedule_from_components cs classrooms labs working_days
        startT endT shuffle).entries,
      time_to_minutes startT ≤ e.start_minute ∧
      e.end_minute ≤ time_to_minutes endT ∧
      ∃ t ∈ shuffle (expandTasks cs), e.component_id = t.task_id ∧
        e.end_minute = e.start_minute + t.duration_minutes := by
  intro e he
  unfold generate_schedule_from_components at he
  split_ifs at he
  · simp at he
  · simp at he
  · simp at he
  · dsimp only at he
    rw [(sortSchedule_perm working_days _).mem_iff] at he
    have hw := scheduleTasks_window working_days (working_days.headD "")
      classrooms labs (time_to_minutes startT) (time_to_minutes endT)
      (shuffle (expandTasks cs)) (initState (time_to_minutes startT))
      (fun _ => le_refl _) e he
    have hp := scheduleTasks_entries working_days (working_days.headD "")
      classrooms labs (time_to_minutes startT) (time_to_minutes endT)
      (shuffle (expandTasks cs)) (initState (time_to_minutes startT)) e he
    obtain ⟨t, ht, hid, _, _, _, _, _, hdur, _⟩ := hp
    exact ⟨hw.1, hw.2, t, ht, hid, hdur⟩

/-- Concrete catalog for the C3 witness. -/
def c3wit_comp : Component :=
  { id := "w3", course_code := "CSE103", component_title := "DB", semester := "S1",
    sections := ["A"], class_type := "Theory", sessions_per_week := 1,
    duration_minutes := 50, assigned_room := none }

def c3wit_out : GenOutput :=
  generate_schedule_from_components [c3wit_comp] ["C101"] [] ["Mon"] ⟨8, 0⟩ ⟨17, 0⟩ id

/-- C3 witness: the theorem applied to the single row of a concrete run. -/
theorem C3_witness :
    time_to_minutes ⟨8, 0⟩ ≤ (c3wit_out.entries.headD default).start_minute ∧
    (c3wit_out.entries.headD default).end_minute ≤ time_to_minutes ⟨17, 0⟩ ∧
    ∃ t ∈ id (expandTasks [c3wit_comp]),
      (c3wit_out.entries.headD default).component_id = t.task_id ∧
      (c3wit_out.entries.headD default).end_minute =
        (c3wit_out.entries.headD default).start_minute + t.duration_minutes :=
  C3_window_containment [c3wit_comp] ["C101"] [] ["Mon"] ⟨8, 0⟩ ⟨17, 0⟩ id
    (c3wit_out.entries.headD default) (by decide)

/-- C8 (amended): far from imposing no gap, the engine advances each
day's cursor to `slot_end + 5`, and in any run in which no per-day
cursor reset occurs, two same-day rows are separated by at least 5
minutes between one row's end and the other row's start — in
particular no session then starts exactly at another session's end.
The reset-free restriction is essential: once a reset reopens booked
time, same-day rows can overlap or share an endpoint, so neither the
original no-buffer claim nor an unconditional 5-minute-separation
statement holds. -/
theorem C8_fiveMinuteBuffer (cs : List Component)
    (classrooms labs working_days : List String) (startT endT : HMTime)
    (shuffle : List SchedTask → List SchedTask)
    (h : (generate_schedule_from_components cs classrooms labs working_days
        startT endT shuffle).resetOccurred = false) :
    bufferedSameDay (generate_schedule_from_components cs classrooms labs working_days
      startT endT shuffle).entries := by
  unfold generate_schedule_from_components at h ⊢
  split_ifs at h ⊢
  · simp [bufferedSameDay]
  · simp [bufferedSameDay]
  · simp [bufferedSameDay]
  · dsimp only at h ⊢
    rw [bufferedSameDay]
    refine ((sortSchedule_perm working_days _).pairwise_iff ?_).mpr ?_
    · intro x y hxy hd
      exact (hxy hd.symm).symm
    · have gap := (scheduleTasks_noreset_gap working_days (working_days.headD "")
        classrooms labs (time_to_minutes startT) (time_to_minutes endT)
        (shuffle (expandTasks cs)) (initState (time_to_minutes startT)) h).2
      refine gap.imp ?_
      intro a b hgap hd
      exact Or.inl (hgap hd)

/-- Concrete catalog for the C8 witness: two sessions on one day, ample
window, so both are placed, 5 minutes apart, with no reset. -/
def c8wit_comp : Component :=
  { id := "w8", course_code := "CSE108", component_title := "OS", semester := "S1",
    sections := ["A"], class_type := "Theory", sessions_per_week := 2,
    duration_minutes := 50, assigned_room := none }

def c8wit_out : GenOutput :=
  generate_schedule_from_components [c8wit_comp] ["C101"] [] ["Mon"] ⟨8, 0⟩ ⟨17, 0⟩ id

/-- C8 witness: the amended theorem applied to a concrete reset-free run. -/
theorem C8_witness : c8wit_out.resetOccurred = false ∧ bufferedSameDay c8wit_out.entries :=
  ⟨by decide, C8_fiveMinuteBuffer [c8wit_comp] ["C101"] [] ["Mon"] ⟨8, 0⟩ ⟨17, 0⟩ id (by decide)⟩

/-- Concrete catalog for the C8 counterexample. -/
def c8cex_comp : Component :=
  { id := "x8", course_code := "CSE109", component_title := "NW", semester := "S1",
    sections := ["A"], class_type := "Theory", sessions_per_week := 2,
    duration_minutes := 50, assigned_room := none }

def c8cex_out : GenOutput :=
  generate_schedule_from_components [c8cex_comp] ["C101"] [] ["Mon"] ⟨8, 0⟩ ⟨17, 0⟩ id

/-- C8 counterexample: on a single day with one room and an ample
window, the second session starts at 08:55, five minutes after the
first ends at 08:50 — no row ever starts exactly at another row's end
minute, so back-to-back zero-gap bookings do not occur. -/
theorem C8_counterexample :
    c8cex_out.entries.map (fun e => (e.start_minute, e.end_minute)) =
      [(480, 530), (535, 585)] ∧
    ∀ a ∈ c8cex_out.entries, ∀ b ∈ c8cex_out.entries,
      ¬ b.start_minute = a.end_minute := by
  constructor
  · decide
  · decide

/-- C9 (amended): the returned schedule is sorted (each row
less-or-equal to the next) by the key `(semester, working-day order,
start minute, section, course code)` — but that key omits the task
identifier, so ties are left to the underlying sort's ordering rather
than broken by task id (see the counterexample). -/
theorem C9_sortedByKey (cs : List Component)
    (classrooms labs working_days : List String) (startT endT : HMTime)
    (shuffle : List SchedTask → List SchedTask) :
    ((generate_schedule_from_components cs classrooms labs working_days
        startT endT shuffle).entries).Chain' (keyLE working_days) := by
  unfold generate_schedule_from_components
  split_ifs
  · simp
  · simp
  · simp
  · dsimp only
    exact sortSchedule_chain' working_days _

/-- Concrete catalog for the C9 counterexample: a reset makes two rows
tie on the whole sort key (same semester, day, start minute, section
and course), and the processing order puts the session with the larger
task id first; the sort keeps them that way. -/
def c9cex_comp : Component :=
  { id := "p9", course_code := "CSE110", component_title := "AI", semester := "S1",
    sections := ["A"], class_type := "Theory", sessions_per_week := 3,
    duration_minutes := 50, assigned_room := none }

def c9cex_out : GenOutput :=
  generate_schedule_from_components [c9cex_comp] ["C101"] [] ["Mon"] ⟨8, 0⟩ ⟨9, 0⟩
    (fun l => l.reverse)

/-- C9 counterexample: two produced rows tie on the full sort key, yet
the row with task id `p9_A_2` precedes the row with task id `p9_A_0`:
ties are not broken by the task identifier. -/
theorem C9_counterexample :
    c9cex_out.entries.map (fun e => e.component_id) = ["p9_A_2", "p9_A_0"] ∧
    ¬ (c9cex_out.entries.Pairwise fun a b =>
        keyTieB ["Mon"] a b = true → strLt b.component_id a.component_id = false) := by
  constructor
  · decide
  · decide

/-- C10: at-most-one placement per task — the day-search loop commits a
task at most once, so if the shuffled tasks carry pairwise-distinct
task ids, the produced rows carry pairwise-distinct task ids too (each
task contributes at most one row). -/
theorem C10_atMostOnePlacement (cs : List Component)
    (classrooms labs working_days : List String) (startT endT : HMTime)
    (shuffle : List SchedTask → List SchedTask)
    (h : ((shuffle (expandTasks cs)).map SchedTask.task_id).Nodup) :
    (((generate_schedule_from_components cs classrooms labs working_days
        startT endT shuffle).entries).map Entry.component_id).Nodup := by
  unfold generate_schedule_from_components
  split_ifs
  · simp
  · simp
  · simp
  · dsimp only
    have hsub := scheduleTasks_ids_sublist working_days (working_days.headD "")
      classrooms labs (time_to_minutes startT) (time_to_minutes endT)
      (shuffle (expandTasks cs)) (initState (time_to_minutes startT))
    have hnd := h.sublist hsub
    have hperm := (sortSchedule_perm working_days
      (scheduleTasks working_days (working_days.headD "") classrooms labs
        (time_to_minutes startT) (time_to_minutes endT)
        (shuffle (expandTasks cs)) (initState (time_to_minutes startT))).1).map
      Entry.component_id
    exact hperm.nodup_iff.mpr hnd

/-- Concrete catalog for the C10 witness: three tasks, one of which
stays unplaced; the two placed rows have distinct task ids. -/
def c10wit_comp : Component :=
  { id := "w10", course_code := "CSE111", component_title := "ML", semester := "S1",
    sections := ["A"], class_type := "Theory", sessions_per_week := 3,
    duration_minutes := 50, assigned_room := none }

def c10wit_out : GenOutput :=
  generate_schedule_from_components [c10wit_comp] ["C101"] [] ["Mon"] ⟨8, 0⟩ ⟨9, 0⟩ id

/-- C10 witness: the theorem applied to a concrete run whose expanded
task ids are pairwise distinct. -/
theorem C10_witness : ((c10wit_out.entries).map Entry.component_id).Nodup :=
  C10_atMostOnePlacement [c10wit_comp] ["C101"] [] ["Mon"] ⟨8, 0⟩ ⟨9, 0⟩ id (by decide)

/-- C5: InputError short-circuit — with components present, if there
are no working days, or a Theory component with an empty classroom
pool, or an any-lab Lab component with an empty lab pool, the run
reports an error and produces no schedule rows and no unplaced-task
reports: placement is never attempted. -/
theorem C5_inputError_shortCircuit (cs : List Component)
    (classrooms labs working_days : List String) (startT endT : HMTime)
    (shuffle : List SchedTask → List SchedTask)
    (_hcs : cs ≠ [])
    (h : working_days = [] ∨
         (needs_theory_room cs = true ∧ classrooms = []) ∨
         (needs_lab_room_any cs = true ∧ labs = [])) :
    (generate_schedule_from_components cs classrooms labs working_days
        startT endT shuffle).errors ≠ [] ∧
    (generate_schedule_from_components cs classrooms labs working_days
        startT endT shuffle).entries = [] ∧
    (generate_schedule_from_components cs classrooms labs working_days
        startT endT shuffle).unplaced = [] := by
  unfold generate_schedule_from_components
  split_ifs with h1 h2 h3
  · exact ⟨by simp, rfl, rfl⟩
  · exact ⟨by simp, rfl, rfl⟩
  · exact ⟨by simp, rfl, rfl⟩
  · exfalso
    rcases h with hwd | ⟨hth, hcl⟩ | ⟨hlb, hla⟩
    · exact h1 (by simp [hwd])
    · exact h2 (by simp [hth, hcl])
    · exact h3 (by simp [hlb, hla])

/-- Concrete catalog for the C5 witness: one component, zero working
days. -/
def c5wit_comp : Component :=
  { id := "w5", course_code := "CSE105", component_title := "SE", semester := "S1",
    sections := ["A"], class_type := "Theory", sessions_per_week := 1,
    duration_minutes := 50, assigned_room := none }

/-- C5 witness: the theorem applied with zero working days configured. -/
theorem C5_witness :
    (generate_schedule_from_components [c5wit_comp] ["C101"] [] [] ⟨8, 0⟩ ⟨17, 0⟩ id).errors ≠ [] ∧
    (generate_schedule_from_components [c5wit_comp] ["C101"] [] [] ⟨8, 0⟩ ⟨17, 0⟩ id).entries = [] ∧
    (generate_schedule_from_components [c5wit_comp] ["C101"] [] [] ⟨8, 0⟩ ⟨17, 0⟩ id).unplaced = [] :=
  C5_inputError_shortCircuit [c5wit_comp] ["C101"] [] [] ⟨8, 0⟩ ⟨17, 0⟩ id
    (by simp) (Or.inl rfl)

/-- C6 (amended): the engine performs no validation of specifically
named lab rooms — the only pre-search error conditions are missing
components/days, Theory with an empty classroom pool, and any-lab with
an empty lab pool; when none of these holds, no error is reported, no
matter whether specifically named lab rooms exist in the lab pool. -/
theorem C6_noSpecificRoomValidation (cs : List Component)
    (classrooms labs working_days : List String) (startT endT : HMTime)
    (shuffle : List SchedTask → List SchedTask)
    (hcs : cs ≠ []) (hwd : working_days ≠ [])
    (hth : needs_theory_room cs = true → classrooms ≠ [])
    (hla : needs_lab_room_any cs = true → labs ≠ []) :
    (generate_schedule_from_components cs classrooms labs working_days
        startT endT shuffle).errors = [] := by
  unfold generate_schedule_from_components
  split_ifs with h1 h2 h3
  · simp only [Bool.or_eq_true, List.isEmpty_iff] at h1
    rcases h1 with h1 | h1
    · exact absurd h1 hcs
    · exact absurd h1 hwd
  · simp only [Bool.and_eq_true, List.isEmpty_iff] at h2
    exact absurd h2.2 (hth h2.1)
  · simp only [Bool.and_eq_true, List.isEmpty_iff] at h3
    exact absurd h3.2 (hla h3.1)
  · rfl

/-- Concrete catalog for the C6 counterexample: a Lab component pinned
to room L501 while the lab pool only contains L502. -/
def c6cex_comp : Component :=
  { id := "x6", course_code := "CSE106", component_title := "IP Lab", semester := "S1",
    sections := ["A"], class_type := "Lab", sessions_per_week := 1,
    duration_minutes := 50, assigned_room := some "L501" }

def c6cex_out : GenOutput :=
  generate_schedule_from_components [c6cex_comp] [] ["L502"] ["Mon"] ⟨8, 0⟩ ⟨17, 0⟩ id

/-- C6 counterexample: the claim as stated is false — with a specific
lab request naming a room absent from the lab pool, the engine reports
no error and schedules the task into the missing room anyway. -/
theorem C6_counterexample :
    c6cex_out.errors = [] ∧
    c6cex_out.entries.map (fun e => e.room) = ["L501"] ∧
    ¬ "L501" ∈ ["L502"] := by
  refine ⟨by decide, by decide, by decide⟩

/-- C6 witness: the amended theorem applied to the concrete catalog of
the counterexample — no error is reported even though L501 is not in
the pool. -/
theorem C6_witness : c6cex_out.errors = [] :=
  C6_noSpecificRoomValidation [c6cex_comp] [] ["L502"] ["Mon"] ⟨8, 0⟩ ⟨17, 0⟩ id
    (by simp) (by simp) (by decide) (by decide)

/-- C7: eligibility — assuming every specifically named lab request
names a room in the lab pool, every produced row's room belongs to the
pool its task implies: Theory rows get a classroom from the classroom
pool, Lab rows get a room from the lab pool, and a Lab row whose task
pins a specific room gets exactly that room. -/
theorem C7_eligibility (cs : List Component)
    (classrooms labs working_days : List String) (startT endT : HMTime)
    (shuffle : List SchedTask → List SchedTask)
    (hspec : ∀ t ∈ shuffle (expandTasks cs), ∀ r, specificRoom t = some r → r ∈ labs) :
    ∀ e ∈ (generate_schedule_from_components cs classrooms labs working_days
        startT endT shuffle).entries,
      ∃ t ∈ shuffle (expandTasks cs),
        e.component_id = t.task_id ∧ e.type = t.class_type ∧
        (t.class_type = "Theory" → e.room ∈ classrooms) ∧
        (t.class_type = "Lab" →
          e.room ∈ labs ∧ ∀ r, specificRoom t = some r → e.room = r) := by
  intro e he
  unfold generate_schedule_from_components at he
  split_ifs at he
  · simp at he
  · simp at he
  · simp at he
  · dsimp only at he
    rw [(sortSchedule_perm working_days _).mem_iff] at he
    obtain ⟨t, ht, hid, hty, _, _, _, _, _, hthc, hlbc⟩ :=
      scheduleTasks_entries working_days (working_days.headD "")
        classrooms labs (time_to_minutes startT) (time_to_minutes endT)
        (shuffle (expandTasks cs)) (initState (time_to_minutes startT)) e he
    refine ⟨t, ht, hid, hty, hthc, ?_⟩
    intro hlb
    obtain ⟨hsome, hnone⟩ := hlbc hlb
    rcases hsr : specificRoom t with _ | r0
    · exact ⟨hnone hsr, fun r hr => Option.noConfusion hr⟩
    · have hroom : e.room = r0 := hsome r0 hsr
      refine ⟨by rw [hroom]; exact hspec t ht r0 hsr, fun r hr => ?_⟩
      rw [hroom, Option.some.inj hr]

/-- Concrete catalog for the C7 witness: one Lab component pinned to
L501, which is present in the lab pool. -/
def c7wit_comp : Component :=
  { id := "w7", course_code := "CSE107", component_title := "DS Lab", semester := "S1",
    sections := ["A"], class_type := "Lab", sessions_per_week := 1,
    duration_minutes := 50, assigned_room := some "L501" }

def c7wit_out : GenOutput :=
  generate_schedule_from_components [c7wit_comp] [] ["L501"] ["Mon"] ⟨8, 0⟩ ⟨17, 0⟩ id

/-- C7 witness: the theorem applied to the single row of a concrete run
whose specific lab request names a pool member. -/
theorem C7_witness :
    ∃ t ∈ id (expandTasks [c7wit_comp]),
      (c7wit_out.entries.headD default).component_id = t.task_id ∧
      (c7wit_out.entries.headD default).type = t.class_type ∧
      (t.class_type = "Theory" → (c7wit_out.entries.headD default).room ∈ ([] : List String)) ∧
      (t.class_type = "Lab" →
        (c7wit_out.entries.headD default).room ∈ ["L501"] ∧
        ∀ r, specificRoom t = some r → (c7wit_out.entries.headD default).room = r) :=
  C7_eligibility [c7wit_comp] [] ["L501"] ["Mon"] ⟨8, 0⟩ ⟨17, 0⟩ id
    (by
      intro t ht r hr
      have ht' : t ∈ [expandTask c7wit_comp "A" 0] := ht
      rw [List.mem_singleton] at ht'
      subst ht'
      have h0 : specificRoom (expandTask c7wit_comp "A" 0) = some "L501" := rfl
      rw [h0] at hr
      rw [← Option.some.inj hr]
      simp)
    (c7wit_out.entries.headD default) (by decide)

/-- Concrete catalog for C4: two 50-minute single-section components of
the same section, one working day, 60-minute window — only one fits. -/
def c4comp1 : Component :=
  { id := "a4", course_code := "CSE201", component_title := "T1", semester := "S1",
    sections := ["A"], class_type := "Theory", sessions_per_week := 1,
    duration_minutes := 50, assigned_room := none }

def c4comp2 : Component :=
  { id := "b4", course_code := "CSE202", component_title := "T2", semester := "S1",
    sections := ["A"], class_type := "Theory", sessions_per_week := 1,
    duration_minutes := 50, assigned_room := none }

/-- C4: partial-infeasibility semantics — whatever order the shuffle
produces, the run reports no error, places exactly one of the two tasks
as the sole schedule row, and reports the other as unplaced instead of
aborting. -/
theorem C4_onePlacedOneUnplaced (shuffle : List SchedTask → List SchedTask)
    (h : (shuffle (expandTasks [c4comp1, c4comp2])).Perm (expandTasks [c4comp1, c4comp2])) :
    (generate_schedule_from_components [c4comp1, c4comp2] ["C101"] [] ["Mon"]
        ⟨8, 0⟩ ⟨9, 0⟩ shuffle).errors = [] ∧
    (generate_schedule_from_components [c4comp1, c4comp2] ["C101"] [] ["Mon"]
        ⟨8, 0⟩ ⟨9, 0⟩ shuffle).entries.length = 1 ∧
    (generate_schedule_from_components [c4comp1, c4comp2] ["C101"] [] ["Mon"]
        ⟨8, 0⟩ ⟨9, 0⟩ shuffle).unplaced.length = 1 := by
  have h' : (shuffle (expandTasks [c4comp1, c4comp2])).Perm
      [expandTask c4comp1 "A" 0, expandTask c4comp2 "A" 0] := h
  rcases perm_pair_eq h' with he | he
  · rw [generate_shuffle_congr [c4comp1, c4comp2] ["C101"] [] ["Mon"] ⟨8, 0⟩ ⟨9, 0⟩
      shuffle (fun _ => [expandTask c4comp1 "A" 0, expandTask c4comp2 "A" 0]) he]
    refine ⟨by decide, by decide, by decide⟩
  · rw [generate_shuffle_congr [c4comp1, c4comp2] ["C101"] [] ["Mon"] ⟨8, 0⟩ ⟨9, 0⟩
      shuffle (fun _ => [expandTask c4comp2 "A" 0, expandTask c4comp1 "A" 0]) he]
    refine ⟨by decide, by decide, by decide⟩

/-- C4 witness: the theorem applied to the identity shuffle. -/
theorem C4_witness :
    (generate_schedule_from_components [c4comp1, c4comp2] ["C101"] [] ["Mon"]
        ⟨8, 0⟩ ⟨9, 0⟩ id).errors = [] ∧
    (generate_schedule_from_components [c4comp1, c4comp2] ["C101"] [] ["Mon"]
        ⟨8, 0⟩ ⟨9, 0⟩ id).entries.length = 1 ∧
    (generate_schedule_from_components [c4comp1, c4comp2] ["C101"] [] ["Mon"]
        ⟨8, 0⟩ ⟨9, 0⟩ id).unplaced.length = 1 :=
  C4_onePlacedOneUnplaced id (List.Perm.refl _)

/-- C2 (amended): the run is a deterministic function of the catalog
together with the shuffled task order — and whenever at most one task
is expanded, the unseeded shuffle cannot matter, so any two shuffle
outcomes give identical output.  (With two or more tasks, different
shuffle orders can differ; see the counterexample.) -/
theorem C2_deterministicGivenShuffle (cs : List Component)
    (classrooms labs working_days : List String) (startT endT : HMTime)
    (f1 f2 : List SchedTask → List SchedTask)
    (h1 : (f1 (expandTasks cs)).Perm (expandTasks cs))
    (h2 : (f2 (expandTasks cs)).Perm (expandTasks cs))
    (hlen : (expandTasks cs).length ≤ 1) :
    generate_schedule_from_components cs classrooms labs working_days startT endT f1 =
    generate_schedule_from_components cs classrooms labs working_days startT endT f2 := by
  refine generate_shuffle_congr cs classrooms labs working_days startT endT f1 f2 ?_
  rcases hexp : expandTasks cs with _ | ⟨t, ts⟩
  · rw [hexp] at h1 h2
    rw [List.perm_nil.mp h1, List.perm_nil.mp h2]
  · rw [hexp] at h1 h2 hlen
    have hts : ts = [] := by
      simp only [List.length_cons] at hlen
      exact List.length_eq_zero.mp (by omega)
    subst hts
    rw [List.perm_singleton.mp h1, List.perm_singleton.mp h2]

/-- Concrete catalog for the C2 witness: a single expanded task, so any
permutation the shuffle produces leads to the same output. -/
def c2wit_comp : Component :=
  { id := "w2", course_code := "CSE112", component_title := "CG", semester := "S1",
    sections := ["A"], class_type := "Theory", sessions_per_week := 1,
    duration_minutes := 50, assigned_room := none }

/-- C2 witness: the amended theorem applied to a one-task catalog with
two different shuffle functions. -/
theorem C2_witness :
    generate_schedule_from_components [c2wit_comp] ["C101"] [] ["Mon"] ⟨8, 0⟩ ⟨17, 0⟩ id =
    generate_schedule_from_components [c2wit_comp] ["C101"] [] ["Mon"] ⟨8, 0⟩ ⟨17, 0⟩
      (fun l => l.reverse) :=
  C2_deterministicGivenShuffle [c2wit_comp] ["C101"] [] ["Mon"] ⟨8, 0⟩ ⟨17, 0⟩
    id (fun l => l.reverse) (List.Perm.refl _) (List.reverse_perm _) (by decide)

/-- Concrete catalog for the C2 counterexample: two one-session theory
components competing for the single 50-minute slot of a 60-minute
window. -/
def c2cex_comp1 : Component :=
  { id := "a2", course_code := "CSE203", component_title := "TX", semester := "S1",
    sections := ["A"], class_type := "Theory", sessions_per_week := 1,
    duration_minutes := 50, assigned_room := none }

def c2cex_comp2 : Component :=
  { id := "b2", course_code := "CSE204", component_title := "TY", semester := "S1",
    sections := ["A"], class_type := "Theory", sessions_per_week := 1,
    duration_minutes := 50, assigned_room := none }

/-- C2 counterexample: the claim as stated is false — the reversed task
order is a permutation the unseeded shuffle can produce, and the two
runs disagree (each places a different course's task in the one slot
that fits). -/
theorem C2_counterexample :
    ((expandTasks [c2cex_comp1, c2cex_comp2]).reverse).Perm
      (expandTasks [c2cex_comp1, c2cex_comp2]) ∧
    generate_schedule_from_components [c2cex_comp1, c2cex_comp2] ["C101"] [] ["Mon"]
        ⟨8, 0⟩ ⟨9, 0⟩ id ≠
    generate_schedule_from_components [c2cex_comp1, c2cex_comp2] ["C101"] [] ["Mon"]
        ⟨8, 0⟩ ⟨9, 0⟩ (fun l => l.reverse) :=
  ⟨List.reverse_perm _, by decide⟩
